import Mathlib

/-!
Verification of the route-tree matcher described by the specification of the
leptos-rs book routing chapter.  The repository itself contains only
declarative route-tree snippets (tests `test_s1` … `test_s5` in
`src/router/c17_nested_routing.rs`); the matching engine they feed is external,
so the matcher, pattern parser and tree semantics below are modelled from the
specification, while the concrete route trees `treeS1` … `treeS5` are
transcribed from the source snippets.
-/

/-- View identifiers appearing in the source snippets: the components `Home`,
`Users`, `UserProfile`, `NoUser`, and the inline "Not Found" view closure. -/
inductive ViewId where
  | Home
  | Users
  | UserProfile
  | NoUser
  | NotFoundView
deriving DecidableEq, Repr

/-- Modelled from the spec: a pattern segment is Literal, Param (leading colon
marker) or Wildcard (leading star marker).  (Section 3 DATA MODEL.) -/
inductive Seg where
  | lit (s : String)
  | param (name : String)
  | wildcard (name : String)
deriving DecidableEq, Repr

/-- Modelled from the spec: the error raised at tree-construction time for
malformed patterns (section 7): a non-terminal wildcard, or a segment that is
empty after its marker. -/
inductive InvalidPatternError where
  | emptySegName
  | wildcardNotLast
deriving DecidableEq, Repr

/-- Modelled from the spec: result of matching a request path against a route
tree — either a match carrying the view chain from root to leaf and captured
params, or the defined NotFound outcome (section 3). -/
inductive MatchResult where
  | Matched (viewChain : List ViewId) (params : List (String × String))
  | NotFound
deriving DecidableEq, Repr

/-- Splits a character list at every slash, accumulating the current segment
in reverse. -/
def splitCharsAux : List Char → List Char → List (List Char)
  | [], acc => [acc.reverse]
  | c :: rest, acc =>
    if c = '/' then acc.reverse :: splitCharsAux rest []
    else splitCharsAux rest (c :: acc)

/-- Modelled from the spec: splitting a path string on the slash separator,
dropping empty segments (sections 4.1 and 4.3 split patterns and request
paths on the separator, classifying only non-empty segments). -/
def splitSlash (s : String) : List String :=
  ((splitCharsAux s.toList []).filter (fun l => l ≠ [])).map (fun l => String.mk l)

/-- Joins path segments back with slashes, producing the suffix string a
wildcard captures. -/
def joinSlash : List String → String
  | [] => ""
  | [s] => s
  | s :: rest => s ++ "/" ++ joinSlash rest

/-- Modelled from the spec: classification of one non-empty raw segment
(section 4.1): leading colon gives Param, leading star gives Wildcard, name is
the remainder and must be non-empty; anything else is a Literal. -/
def classifySeg (s : String) : Except InvalidPatternError Seg :=
  match s.toList with
  | ':' :: rest =>
    if rest = [] then Except.error InvalidPatternError.emptySegName
    else Except.ok (Seg.param (String.mk rest))
  | '*' :: rest =>
    if rest = [] then Except.error InvalidPatternError.emptySegName
    else Except.ok (Seg.wildcard (String.mk rest))
  | _ => Except.ok (Seg.lit s)

/-- Modelled from the spec: sequential parsing of the raw segments of a
pattern; fails if a Wildcard segment is not last or a segment name is empty
after its marker (section 4.1). -/
def parseSegs : List String → Except InvalidPatternError (List Seg)
  | [] => Except.ok []
  | s :: rest =>
    match classifySeg s with
    | Except.error e => Except.error e
    | Except.ok seg =>
      match seg, rest with
      | Seg.wildcard _, _ :: _ => Except.error InvalidPatternError.wildcardNotLast
      | _, _ =>
        match parseSegs rest with
        | Except.error e => Except.error e
        | Except.ok t => Except.ok (seg :: t)

/-- Modelled from the spec: the PathPattern parser of section 4.1, from a
pattern string such as "/users/:id" to a segment list or an
InvalidPatternError. -/
def parsePattern (s : String) : Except InvalidPatternError (List Seg) :=
  parseSegs (splitSlash s)

/-- True when parsing the pattern string fails. -/
def patternFails (s : String) : Bool :=
  match parsePattern s with
  | Except.error _ => true
  | Except.ok _ => false

/-- Modelled from the spec's words for the error condition, to be compared
with the parser: a raw segment list is invalid exactly when some segment is
empty after its marker, or a wildcard segment is not the last segment. -/
def specInvalidPattern : List String → Bool
  | [] => false
  | s :: rest =>
    (match s.toList with
     | [':'] => true
     | ['*'] => true
     | _ => false)
    || ((match s.toList with
         | '*' :: _ => true
         | _ => false) && !rest.isEmpty)
    || specInvalidPattern rest

/-- True when every Wildcard segment of a parsed pattern is the final
segment. -/
def wildcardOnlyFinal : List Seg → Bool
  | Seg.wildcard _ :: _ :: _ => false
  | _ :: rest => wildcardOnlyFinal rest
  | [] => true

/-- True when a pattern contains no Wildcard segment at all. -/
def wildFree : List Seg → Bool
  | [] => true
  | Seg.wildcard _ :: _ => false
  | _ :: rest => wildFree rest

/-- Modelled from the spec: a RouteNode owns a PathPattern, a view identifier
and an ordered list of children (section 3). -/
inductive RouteNode where
  | mk (pattern : List Seg) (view : ViewId) (children : List RouteNode)

/-- The pattern of a route node. -/
def RouteNode.pattern : RouteNode → List Seg
  | .mk p _ _ => p

/-- The view identifier of a route node. -/
def RouteNode.view : RouteNode → ViewId
  | .mk _ v _ => v

/-- The children of a route node. -/
def RouteNode.children : RouteNode → List RouteNode
  | .mk _ _ cs => cs

/-- Modelled from the spec: consuming a node's pattern segments against the
remaining path segments (section 4.3): a Literal must equal the path segment,
a Param captures the path segment under its name, a Wildcard captures the
remaining unsplit suffix and consumes everything.  Returns the unconsumed
path remainder and the accumulated params, or none. -/
def consume : List Seg → List String → List (String × String) →
    Option (List String × List (String × String))
  | [], rest, params => some (rest, params)
  | Seg.lit s :: ps, seg :: rest, params =>
    if seg = s then consume ps rest params else none
  | Seg.param name :: ps, seg :: rest, params =>
    consume ps rest (params ++ [(name, seg)])
  | Seg.wildcard name :: _, rest, params =>
    some ([], params ++ [(name, joinSlash rest)])
  | _, [], _ => none

mutual
/-- Modelled from the spec: matching one RouteNode (section 4.3): consume the
node's own pattern; on full consumption with children remaining, recurse into
the children with the remainder; on full consumption with no children, the
node is a leaf match exactly when no remainder is left. -/
def matchNode : RouteNode → List String →
    Option (List ViewId × List (String × String))
  | RouteNode.mk pat v children, segs =>
    match consume pat segs [] with
    | none => none
    | some (rest, params) =>
      match children with
      | [] => if rest = [] then some ([v], params) else none
      | c :: cs =>
        match matchNodes (c :: cs) rest with
        | none => none
        | some (chain, cparams) => some (v :: chain, params ++ cparams)

/-- Modelled from the spec: ordered traversal of sibling route nodes — the
first structurally matching branch wins, in declaration order (section 4.3). -/
def matchNodes : List RouteNode → List String →
    Option (List ViewId × List (String × String))
  | [], _ => none
  | r :: rs, segs =>
    match matchNode r segs with
    | some res => some res
    | none => matchNodes rs segs
end

/-- Modelled from the spec: the operation match(tree, requestPath) of section
4.3: split the request path into segments, traverse the tree depth-first in
declaration order, and return NotFound when no RouteNode matches. -/
def matchPath (tree : List RouteNode) (path : String) : MatchResult :=
  match matchNodes tree (splitSlash path) with
  | some (chain, params) => MatchResult.Matched chain params
  | none => MatchResult.NotFound

/-- Whether a MatchResult is a match. -/
def isMatched : MatchResult → Bool
  | MatchResult.Matched _ _ => true
  | MatchResult.NotFound => false

/-- The params mapping of a Matched result, when there is one. -/
def resultParams : MatchResult → Option (List (String × String))
  | MatchResult.Matched _ ps => some ps
  | MatchResult.NotFound => none

/-- The pattern a pattern string parses to, used to transcribe the source
snippets' route declarations; valid for the patterns appearing in the source. -/
def pat (s : String) : List Seg :=
  match parsePattern s with
  | Except.ok segs => segs
  | Except.error _ => []

/-- The route tree of snippet s1: flat routes "/", "/users", "/users/:id" and
the wildcard fallback "/*any". -/
def treeS1 : List RouteNode :=
  [RouteNode.mk (pat "/") ViewId.Home [],
   RouteNode.mk (pat "/users") ViewId.Users [],
   RouteNode.mk (pat "/users/:id") ViewId.UserProfile [],
   RouteNode.mk (pat "/*any") ViewId.NotFoundView []]

/-- The route tree of snippet s2: "/" plus a ParentRoute "/users" whose child
is ":id", and the wildcard fallback "/*any". -/
def treeS2 : List RouteNode :=
  [RouteNode.mk (pat "/") ViewId.Home [],
   RouteNode.mk (pat "/users") ViewId.Users
     [RouteNode.mk (pat ":id") ViewId.UserProfile []],
   RouteNode.mk (pat "/*any") ViewId.NotFoundView []]

/-- The route tree of snippet s3: flat routes "/users" and "/users/:id", no
wildcard fallback. -/
def treeS3 : List RouteNode :=
  [RouteNode.mk (pat "/users") ViewId.Users [],
   RouteNode.mk (pat "/users/:id") ViewId.UserProfile []]

/-- The route tree of snippet s4: a single ParentRoute "/users" with child
":id". -/
def treeS4 : List RouteNode :=
  [RouteNode.mk (pat "/users") ViewId.Users
     [RouteNode.mk (pat ":id") ViewId.UserProfile []]]

/-- The route tree of snippet s5: a ParentRoute "/users" with children ":id"
and the empty pattern "". -/
def treeS5 : List RouteNode :=
  [RouteNode.mk (pat "/users") ViewId.Users
     [RouteNode.mk (pat ":id") ViewId.UserProfile [],
      RouteNode.mk (pat "") ViewId.NoUser []]]

theorem consume_map_lit (segs : List String) (params : List (String × String)) :
    consume (segs.map Seg.lit) segs params = some ([], params) := by
  induction segs with
  | nil => rfl
  | cons s rest ih => simp [consume, ih]

theorem consume_params_shift (p : List Seg) :
    ∀ (segs : List String) (params : List (String × String)),
      consume p segs params =
        Option.map (fun r => (r.1, params ++ r.2)) (consume p segs []) := by
  induction p with
  | nil => intro segs params; simp [consume]
  | cons sg ps ih =>
    intro segs params
    cases sg with
    | lit s =>
      cases segs with
      | nil => simp [consume]
      | cons seg rest =>
        by_cases h : seg = s
        · simp only [consume, if_pos h]
          exact ih rest params
        · simp [consume, h]
    | param n =>
      cases segs with
      | nil => simp [consume]
      | cons seg rest =>
        rw [consume, consume, ih rest (params ++ [(n, seg)]), ih rest ([] ++ [(n, seg)])]
        cases consume ps rest [] with
        | none => rfl
        | some r => simp
    | wildcard n =>
      cases segs with
      | nil => simp [consume]
      | cons seg rest => simp [consume]

theorem consume_append (p₁ p₂ : List Seg) (hw : wildFree p₁ = true) :
    ∀ (segs : List String) (params : List (String × String)),
      consume (p₁ ++ p₂) segs params =
        Option.bind (consume p₁ segs params) (fun r => consume p₂ r.1 r.2) := by
  induction p₁ with
  | nil => intro segs params; simp [consume]
  | cons sg ps ih =>
    intro segs params
    cases sg with
    | lit s =>
      cases segs with
      | nil => simp [consume]
      | cons seg rest =>
        by_cases h : seg = s
        · simp only [consume, if_pos h]
          exact ih (by simpa [wildFree] using hw) rest params
        · simp [consume, h]
    | param n =>
      cases segs with
      | nil => simp [consume]
      | cons seg rest => simp [consume]; exact ih (by simpa [wildFree] using hw) rest (params ++ [(n, seg)])
    | wildcard n => simp [wildFree] at hw

theorem matchNodes_append_law (rs : List RouteNode) (fb : RouteNode) (segs : List String) :
    matchNodes (rs ++ [fb]) segs =
      (match matchNodes rs segs with
       | some res => some res
       | none => matchNode fb segs) := by
  induction rs with
  | nil =>
    cases h : matchNode fb segs with
    | none => simp [matchNodes, h]
    | some res => simp [matchNodes, h]
  | cons r rest ih =>
    cases h : matchNode r segs with
    | none => simpa [matchNodes, h] using ih
    | some res => simp [matchNodes, h]

theorem matchNodes_none_of_all_none (rs : List RouteNode) (segs : List String)
    (h : ∀ r ∈ rs, matchNode r segs = none) : matchNodes rs segs = none := by
  induction rs with
  | nil => rfl
  | cons r rest ih =>
    have hr := h r (by simp)
    simp only [matchNodes, hr]
    exact ih (fun x hx => h x (by simp [hx]))

theorem nested_flat_same_matches (p₁ p₂ : List Seg) (v v' : ViewId)
    (hw : wildFree p₁ = true) (path : String) :
    isMatched (matchPath [RouteNode.mk p₁ v [RouteNode.mk p₂ v' []]] path) =
      isMatched (matchPath [RouteNode.mk (p₁ ++ p₂) v' []] path) := by
  unfold matchPath
  simp only [matchNodes, matchNode, consume_append p₁ p₂ hw]
  cases hc : consume p₁ (splitSlash path) [] with
  | none => rfl
  | some r =>
    obtain ⟨rest, params⟩ := r
    simp only [Option.some_bind]
    rw [consume_params_shift p₂ rest params]
    cases hc2 : consume p₂ rest [] with
    | none => rfl
    | some r2 =>
      obtain ⟨rest2, params2⟩ := r2
      by_cases h2 : rest2 = []
      · simp [h2, isMatched]
      · simp [h2, isMatched]

theorem parseSegs_spec (raw : List String) :
    ((match parseSegs raw with
      | Except.error _ => true
      | Except.ok _ => false) = specInvalidPattern raw) ∧
    (∀ segs, parseSegs raw = Except.ok segs → wildcardOnlyFinal segs = true) := by
  induction raw with
  | nil => exact ⟨rfl, fun segs h => by cases h; rfl⟩
  | cons s rest ih =>
    obtain ⟨ih1, ih2⟩ := ih
    cases hs : s.data with
    | nil =>
      constructor
      · simp only [parseSegs, classifySeg, specInvalidPattern, String.toList, hs, ← ih1]
        cases parseSegs rest <;> simp
      · intro segs h
        simp only [parseSegs, classifySeg, String.toList, hs] at h
        cases hp : parseSegs rest with
        | error e => rw [hp] at h; cases h
        | ok t =>
          rw [hp] at h
          cases h
          simpa [wildcardOnlyFinal] using ih2 t hp
    | cons c cs =>
      by_cases hc : c = ':'
      · subst hc
        cases cs with
        | nil =>
          refine ⟨?_, ?_⟩
          · simp [parseSegs, classifySeg, specInvalidPattern, String.toList, hs]
          · intro segs h
            simp [parseSegs, classifySeg, String.toList, hs] at h
        | cons c' cs' =>
          constructor
          · simp only [parseSegs, classifySeg, specInvalidPattern, String.toList, hs, ← ih1]
            cases parseSegs rest <;> simp
          · intro segs h
            simp only [parseSegs, classifySeg, String.toList, hs] at h
            cases hp : parseSegs rest with
            | error e => rw [hp] at h; cases h
            | ok t =>
              rw [hp] at h
              cases h
              simpa [wildcardOnlyFinal] using ih2 t hp
      · by_cases hw : c = '*'
        · subst hw
          cases cs with
          | nil =>
            refine ⟨?_, ?_⟩
            · simp [parseSegs, classifySeg, specInvalidPattern, String.toList, hs]
            · intro segs h
              simp [parseSegs, classifySeg, String.toList, hs] at h
          | cons c' cs' =>
            cases rest with
            | nil =>
              refine ⟨?_, ?_⟩
              · simp [parseSegs, classifySeg, specInvalidPattern, String.toList, hs]
              · intro segs h
                simp only [parseSegs, classifySeg, String.toList, hs] at h
                cases h
                rfl
            | cons r rs =>
              refine ⟨?_, ?_⟩
              · simp [parseSegs, classifySeg, specInvalidPattern, String.toList, hs]
              · intro segs h
                simp [parseSegs, classifySeg, String.toList, hs] at h
        · constructor
          · simp only [parseSegs, classifySeg, specInvalidPattern, String.toList, hs, ← ih1]
            cases parseSegs rest <;> simp [hc, hw]
          · intro segs h
            have hcl : classifySeg s = Except.ok (Seg.lit s) := by
              simp only [classifySeg, String.toList, hs]
              split
              · simp_all
              · simp_all
              · rfl
            simp only [parseSegs, hcl] at h
            cases hp : parseSegs rest with
            | error e => rw [hp] at h; cases h
            | ok t =>
              rw [hp] at h
              cases h
              simpa [wildcardOnlyFinal] using ih2 t hp

theorem matchNode_chain_head (p : List Seg) (v : ViewId) (children : List RouteNode)
    (segs : List String) (chain : List ViewId) (params : List (String × String))
    (h : matchNode (RouteNode.mk p v children) segs = some (chain, params)) :
    ∃ tail, chain = v :: tail := by
  rw [matchNode.eq_1] at h
  cases hc : consume p segs [] with
  | none => rw [hc] at h; cases h
  | some r =>
    obtain ⟨rest, prms⟩ := r
    rw [hc] at h
    cases children with
    | nil =>
      by_cases hr : rest = []
      · simp only [hr, if_pos rfl] at h
        cases h
        exact ⟨[], rfl⟩
      · simp only [if_neg hr] at h
        cases h
    | cons child crest =>
      have h2 : (match matchNodes (child :: crest) rest with
                 | none => none
                 | some (chain2, cparams) => some (v :: chain2, prms ++ cparams)) =
          some (chain, params) := h
      cases hm : matchNodes (child :: crest) rest with
      | none =>
        rw [hm] at h2
        cases h2
      | some r2 =>
        obtain ⟨chain2, params2⟩ := r2
        rw [hm] at h2
        cases h2
        exact ⟨chain2, rfl⟩

/-- C1: Nesting is associative — for every request path, a tree declaring a
ParentRoute with pattern "/users" and a child route ":id" (snippet s4) matches
exactly the same set of request paths as the flat route "/users/:id" (snippet
s3's second route); in general a wildcard-free parent pattern prefixed to a
child pattern matches the same paths as the concatenated flat pattern. -/
theorem claim_c1_nesting_associative :
    (∀ path : String,
       isMatched (matchPath treeS4 path) =
         isMatched (matchPath [RouteNode.mk (pat "/users/:id") ViewId.UserProfile []] path)) ∧
    (∀ (p₁ p₂ : List Seg) (v v' : ViewId) (path : String), wildFree p₁ = true →
       isMatched (matchPath [RouteNode.mk p₁ v [RouteNode.mk p₂ v' []]] path) =
         isMatched (matchPath [RouteNode.mk (p₁ ++ p₂) v' []] path)) := by
  constructor
  · intro path
    have hp : pat "/users/:id" = pat "/users" ++ pat ":id" := by decide
    rw [hp]
    exact nested_flat_same_matches (pat "/users") (pat ":id") ViewId.Users
      ViewId.UserProfile (by decide) path
  · intro p₁ p₂ v v' path hw
    exact nested_flat_same_matches p₁ p₂ v v' hw path

/-- Witness for C1 at the parent pattern "/users", child ":id" and request
path "/users/42". -/
theorem claim_c1_witness :
    wildFree (pat "/users") = true ∧
    isMatched (matchPath [RouteNode.mk (pat "/users") ViewId.Users
        [RouteNode.mk (pat ":id") ViewId.UserProfile []]] "/users/42") =
      isMatched (matchPath [RouteNode.mk (pat "/users" ++ pat ":id")
        ViewId.UserProfile []] "/users/42") :=
  ⟨by decide, claim_c1_nesting_associative.2 (pat "/users") (pat ":id")
    ViewId.Users ViewId.UserProfile "/users/42" (by decide)⟩

/-- C2: A designated fallback route declared last among its siblings is
evaluated last: matching the siblings-plus-fallback list returns the result of
the earlier siblings whenever one of them matches, and falls through to the
fallback only when no earlier sibling matches; moreover sibling traversal is
in declaration order, so among equally eligible siblings the first-declared
one wins. -/
theorem claim_c2_fallback_evaluated_last (rs : List RouteNode) (fb r : RouteNode)
    (segs : List String) :
    (matchNodes (rs ++ [fb]) segs =
      (match matchNodes rs segs with
       | some res => some res
       | none => matchNode fb segs)) ∧
    (matchNodes (r :: rs) segs =
      (match matchNode r segs with
       | some res => some res
       | none => matchNodes rs segs)) :=
  ⟨matchNodes_append_law rs fb segs, rfl⟩

/-- C3: For pattern "/users/:id" and path "/users/42" (snippet s1), match
returns Matched with params mapping "id" to "42"; in general a Param segment
captures the literal path segment it consumes under its name. -/
theorem claim_c3_param_capture :
    (matchPath treeS1 "/users/42" =
      MatchResult.Matched [ViewId.UserProfile] [("id", "42")]) ∧
    (∀ (n : String) (ps : List Seg) (s : String) (rest : List String)
       (params : List (String × String)),
       consume (Seg.param n :: ps) (s :: rest) params =
         consume ps rest (params ++ [(n, s)])) :=
  ⟨by decide, fun _ _ _ _ _ => rfl⟩

/-- C4: For pattern "/*any" and path "/anything/goes/here" (snippet s1's
fallback), match returns Matched with params mapping "any" to
"anything/goes/here"; in general a Wildcard segment captures the entire
remaining path suffix, re-joined with slashes, under its name. -/
theorem claim_c4_wildcard_capture :
    (matchPath treeS1 "/anything/goes/here" =
      MatchResult.Matched [ViewId.NotFoundView] [("any", "anything/goes/here")]) ∧
    (∀ (n : String) (ps : List Seg) (rest : List String)
       (params : List (String × String)),
       consume (Seg.wildcard n :: ps) rest params =
         some ([], params ++ [(n, joinSlash rest)])) :=
  ⟨by decide, fun n ps rest params => by cases rest <;> rfl⟩

/-- C5: For every route tree in which no branch matches the request path,
match returns the defined NotFound outcome rather than raising an error. -/
theorem claim_c5_notfound_no_branch (tree : List RouteNode) (path : String)
    (h : ∀ r ∈ tree, matchNode r (splitSlash path) = none) :
    matchPath tree path = MatchResult.NotFound := by
  unfold matchPath
  rw [matchNodes_none_of_all_none tree (splitSlash path) h]

/-- Witness for C5 at snippet s3's tree (no wildcard fallback) and the
unmatched path "/about". -/
theorem claim_c5_witness :
    (∀ r ∈ treeS3, matchNode r (splitSlash "/about") = none) ∧
    matchPath treeS3 "/about" = MatchResult.NotFound :=
  ⟨by decide, claim_c5_notfound_no_branch treeS3 "/about" (by decide)⟩

/-- C6: Pattern parsing fails with an InvalidPatternError exactly when a
wildcard segment is not the last segment or a segment is empty after its
marker (the spec-side condition specInvalidPattern), and every successfully
parsed pattern has its wildcard, if any, only as the final segment. -/
theorem claim_c6_invalid_pattern (s : String) :
    (patternFails s = specInvalidPattern (splitSlash s)) ∧
    (∀ segs, parsePattern s = Except.ok segs → wildcardOnlyFinal segs = true) := by
  obtain ⟨h1, h2⟩ := parseSegs_spec (splitSlash s)
  exact ⟨h1, h2⟩

/-- Witness for C6 at the invalid pattern "/*any/more" (non-terminal
wildcard) and the valid pattern "/users/:id". -/
theorem claim_c6_witness :
    (patternFails "/*any/more" = specInvalidPattern (splitSlash "/*any/more")) ∧
    wildcardOnlyFinal [Seg.lit "users", Seg.param "id"] = true :=
  ⟨(claim_c6_invalid_pattern "/*any/more").1,
   (claim_c6_invalid_pattern "/users/:id").2 [Seg.lit "users", Seg.param "id"] rfl⟩

/-- C7, amended: a route whose pattern is exactly the literal split of the
request path matches that path with an empty params mapping when it is the
tree (a singleton tree of that one route), and snippet s1's literal routes
"/" and "/users" match their own paths with no params; the unamended claim
over every tree containing the literal pattern verbatim fails, because an
earlier-eligible sibling can win instead and capture params. -/
theorem claim_c7_literal_empty_params :
    (∀ (p : String) (v : ViewId),
       matchPath [RouteNode.mk ((splitSlash p).map Seg.lit) v []] p =
         MatchResult.Matched [v] []) ∧
    (matchPath treeS1 "/" = MatchResult.Matched [ViewId.Home] []) ∧
    (matchPath treeS1 "/users" = MatchResult.Matched [ViewId.Users] []) := by
  refine ⟨?_, by decide, by decide⟩
  intro p v
  unfold matchPath
  rw [matchNodes, matchNode.eq_1, consume_map_lit]
  rfl

/-- Counterexample to C7 as stated: in snippet s2's tree the literal pattern
of the path "/users" appears verbatim (the ParentRoute's own pattern), yet
matching "/users" returns the wildcard fallback with the nonempty params
mapping "any" to "users" — the parent's child ":id" needs a further segment,
so the parent branch fails and the fallback captures the path. -/
theorem claim_c7_counterexample :
    ((treeS2.map RouteNode.pattern).contains ((splitSlash "/users").map Seg.lit) = true) ∧
    (matchPath treeS2 "/users" =
      MatchResult.Matched [ViewId.NotFoundView] [("any", "users")]) ∧
    (resultParams (matchPath treeS2 "/users") ≠ some []) := by decide

/-- C8: Matching "/users/42" against snippet s2's nested tree yields the view
chain Users then UserProfile, in root-to-leaf order; in general every
successful matchNode result's chain starts with the node's own view, so the
chain lists the views along the matched branch from the root downward. -/
theorem claim_c8_view_chain :
    (matchPath treeS2 "/users/42" =
      MatchResult.Matched [ViewId.Users, ViewId.UserProfile] [("id", "42")]) ∧
    (∀ (p : List Seg) (v : ViewId) (children : List RouteNode)
       (segs : List String) (chain : List ViewId) (params : List (String × String)),
       matchNode (RouteNode.mk p v children) segs = some (chain, params) →
       ∃ tail, chain = v :: tail) :=
  ⟨by decide, matchNode_chain_head⟩

/-- Witness for C8 at snippet s2's parent route and the path segments
"users", "42". -/
theorem claim_c8_witness :
    ∃ tail, [ViewId.Users, ViewId.UserProfile] = ViewId.Users :: tail :=
  claim_c8_view_chain.2 (pat "/users") ViewId.Users
    [RouteNode.mk (pat ":id") ViewId.UserProfile []] ["users", "42"]
    [ViewId.Users, ViewId.UserProfile] [("id", "42")] (by decide)

/-- C9: match is a pure, deterministic function of the route tree and the
request path: equal inputs give equal MatchResults (the tree, passed by
value, is never modified — the matcher is a total function in this model). -/
theorem claim_c9_deterministic (tree : List RouteNode) (p q : String)
    (h : p = q) : matchPath tree p = matchPath tree q := by rw [h]

/-- Witness for C9 at snippet s1's tree and the path "/users". -/
theorem claim_c9_witness :
    matchPath treeS1 "/users" = matchPath treeS1 "/users" :=
  claim_c9_deterministic treeS1 "/users" "/users" rfl

/-- C10: In snippet s5, where ParentRoute "/users" has a child with the empty
pattern, the request path "/users" equal to the parent's full pattern returns
Matched with empty params and a view chain ending at the empty-pattern child
NoUser, not at the parent alone. -/
theorem claim_c10_empty_pattern_child :
    matchPath treeS5 "/users" =
      MatchResult.Matched [ViewId.Users, ViewId.NoUser] [] := by decide
